import Mathlib

/-!
Verification of the classification-and-aggregation engine of the
reduzer-summary repository (src/utils/detector.py, src/utils/data_parser.py,
src/main.py) against its natural-language specification.

The Python code is shallowly embedded: each regular expression used by the
detector module is modelled by an executable scanner over `List Char`,
numeric cell values are rationals (pandas floats are modelled exactly),
and the pandas data frame pipeline becomes explicit list processing over an
`Item` record mirroring the data-frame columns.  Character case folding is
modelled for ASCII (the categories and keywords involved are ASCII); the
regex classes `\s` and `\d` are modelled by their ASCII members.
-/

set_option maxRecDepth 10000

/-- Lowercase a character, as Python `str.lower` does for ASCII. -/
def lc (c : Char) : Char := c.toLower

/-- Membership in the regex class `\s` (ASCII whitespace). -/
def isWS (c : Char) : Bool :=
  c == ' ' || c == '\t' || c == '\n' || c == '\r' || c.toNat == 11 || c.toNat == 12

/-- Membership in the regex class `[\s_-]`, the separator class used by the
detector for token boundaries. -/
def isSep (c : Char) : Bool := isWS c || c == '_' || c == '-'

/-- Membership in the regex class `[\s_]` used by the `MMI` marker pattern. -/
def isSepU (c : Char) : Bool := isWS c || c == '_'

/-- Case-insensitive test that `tok` is a prefix of `l`. -/
def prefCI : List Char → List Char → Bool
  | [], _ => true
  | _ :: _, [] => false
  | t :: ts, c :: cs => (lc c == lc t) && prefCI ts cs

/-- Case-insensitive test that `tok` occurs in `s` starting at position `i`. -/
def tokAtB (tok s : List Char) (i : Nat) : Bool := prefCI tok (s.drop i)

/-- Declarative counterpart of `tokAtB`: `tok` occurs (case-insensitively) at
position `i` of `s`. -/
def TokAt (tok s : List Char) (i : Nat) : Prop :=
  ∃ pre mid post, s = pre ++ mid ++ post ∧ pre.length = i ∧ mid.map lc = tok.map lc

theorem prefCI_iff (tok l : List Char) :
    prefCI tok l = true ↔ ∃ mid post, l = mid ++ post ∧ mid.map lc = tok.map lc := by
  induction tok generalizing l with
  | nil =>
    simp only [prefCI, true_iff, List.map_nil]
    exact ⟨[], l, rfl, rfl⟩
  | cons t ts ih =>
    cases l with
    | nil =>
      simp only [prefCI, List.map_cons]
      constructor
      · intro h; exact absurd h (by simp)
      · rintro ⟨mid, post, hmp, hmap⟩
        cases mid with
        | nil => simp at hmap
        | cons a as => simp at hmp
    | cons c cs =>
      simp only [prefCI, Bool.and_eq_true, beq_iff_eq, List.map_cons]
      constructor
      · rintro ⟨hc, hrest⟩
        obtain ⟨mid, post, hmp, hmap⟩ := (ih cs).mp hrest
        exact ⟨c :: mid, post, by simp [hmp], by simp [hc, hmap]⟩
      · rintro ⟨mid, post, hmp, hmap⟩
        cases mid with
        | nil => simp at hmap
        | cons a as =>
          simp only [List.cons_append, List.cons.injEq] at hmp
          simp only [List.map_cons, List.cons.injEq] at hmap
          refine ⟨by rw [hmp.1]; exact hmap.1, ?_⟩
          exact (ih cs).mpr ⟨as, post, hmp.2, hmap.2⟩

theorem tokAtB_iff_of_le (tok s : List Char) (i : Nat) (h : i ≤ s.length) :
    tokAtB tok s i = true ↔ TokAt tok s i := by
  unfold tokAtB TokAt
  rw [prefCI_iff]
  constructor
  · rintro ⟨mid, post, hmp, hmap⟩
    refine ⟨s.take i, mid, post, ?_, by simp [List.length_take, Nat.min_eq_left h], hmap⟩
    conv_lhs => rw [← List.take_append_drop i s]
    rw [hmp, List.append_assoc]
  · rintro ⟨pre, mid, post, hs, hlen, hmap⟩
    refine ⟨mid, post, ?_, hmap⟩
    rw [hs, ← hlen, List.drop_append_eq_append_drop]
    simp

theorem tokAt_of_tokAtB {tok s : List Char} {i : Nat} (hne : tok ≠ [])
    (hb : tokAtB tok s i = true) : TokAt tok s i := by
  rcases le_or_lt i s.length with h | h
  · exact (tokAtB_iff_of_le tok s i h).mp hb
  · exfalso
    have hdrop : s.drop i = [] := List.drop_eq_nil_of_le (Nat.le_of_lt h)
    cases tok with
    | nil => exact hne rfl
    | cons t ts => rw [tokAtB, hdrop] at hb; simp [prefCI] at hb

theorem tokAt_le_length {tok s : List Char} {i : Nat} (h : TokAt tok s i) :
    i ≤ s.length := by
  obtain ⟨pre, mid, post, hs, hlen, _⟩ := h
  rw [hs, ← hlen]
  simp [List.length_append]

/-- Executable case-insensitive substring search (`re.search` with a plain
literal token, and Python `in` on lowercased strings). -/
def occTokB (tok s : List Char) : Bool :=
  (List.range (s.length + 1)).any fun i => tokAtB tok s i

/-- Declarative substring occurrence. -/
def OccTok (tok s : List Char) : Prop := ∃ i, TokAt tok s i

theorem occTokB_iff (tok s : List Char) : occTokB tok s = true ↔ OccTok tok s := by
  unfold occTokB OccTok
  rw [List.any_eq_true]
  constructor
  · rintro ⟨i, hi, hb⟩
    rw [List.mem_range] at hi
    exact ⟨i, (tokAtB_iff_of_le tok s i (Nat.lt_succ_iff.mp hi)).mp hb⟩
  · rintro ⟨i, hTok⟩
    have hle := tokAt_le_length hTok
    exact ⟨i, List.mem_range.mpr (Nat.lt_succ_of_le hle),
      (tokAtB_iff_of_le tok s i hle).mpr hTok⟩

instance (tok s : List Char) : Decidable (OccTok tok s) :=
  decidable_of_iff (occTokB tok s = true) (occTokB_iff tok s)

/-- Left boundary of the regex fragment `(?:^|[\s_-])`: position `i` is at the
start of the string or preceded by a separator. -/
def boundLB (s : List Char) (i : Nat) : Bool := i == 0 || (s[i-1]?).any isSep

/-- Right boundary of the regex fragment `(?:[\s_-]|$)`: position `j` is at the
end of the string or holds a separator. -/
def boundRB (s : List Char) (j : Nat) : Bool := j == s.length || (s[j]?).any isSep

/-- Executable search for a token bounded by separators or string edges on both
sides, as in the patterns of the form `(?:^|[\s_-])TOK(?:[\s_-]|$)`. -/
def occBddB (tok s : List Char) : Bool :=
  (List.range (s.length + 1)).any fun i =>
    tokAtB tok s i && boundLB s i && boundRB s (i + tok.length)

/-- Declarative bounded (token) occurrence. -/
def OccBdd (tok s : List Char) : Prop :=
  ∃ i, TokAt tok s i ∧ boundLB s i = true ∧ boundRB s (i + tok.length) = true

theorem occBddB_iff (tok s : List Char) : occBddB tok s = true ↔ OccBdd tok s := by
  unfold occBddB OccBdd
  rw [List.any_eq_true]
  constructor
  · rintro ⟨i, hi, hb⟩
    rw [List.mem_range] at hi
    rw [Bool.and_eq_true, Bool.and_eq_true] at hb
    exact ⟨i, (tokAtB_iff_of_le tok s i (Nat.lt_succ_iff.mp hi)).mp hb.1.1, hb.1.2, hb.2⟩
  · rintro ⟨i, hTok, hL, hR⟩
    have hle := tokAt_le_length hTok
    refine ⟨i, List.mem_range.mpr (Nat.lt_succ_of_le hle), ?_⟩
    rw [Bool.and_eq_true, Bool.and_eq_true]
    exact ⟨⟨(tokAtB_iff_of_le tok s i hle).mpr hTok, hL⟩, hR⟩

instance (tok s : List Char) : Decidable (OccBdd tok s) :=
  decidable_of_iff (occBddB tok s = true) (occBddB_iff tok s)

/-- Length of the maximal leading whitespace run (serves the greedy `\s*` and
`\s+` fragments). -/
def wsRun : List Char → Nat
  | [] => 0
  | c :: cs => if isWS c then wsRun cs + 1 else 0

/-- Length of the maximal leading digit run (serves the greedy `\d+`). -/
def digitRun : List Char → Nat
  | [] => 0
  | c :: cs => if c.isDigit then digitRun cs + 1 else 0

/-! ## Detector (src/utils/detector.py) -/

/-- The literal token of the scenario patterns. -/
def scenTok : List Char := "Scenario".data

/-- The character class `[ABCD]` under `re.IGNORECASE`. -/
def isScenLetter (c : Char) : Bool :=
  lc c == 'a' || lc c == 'b' || lc c == 'c' || lc c == 'd'

/-- Match of pattern 1, `Scenario([ABCD])(?:[_\s-]|$)`, anchored at `i`;
returns the captured letter uppercased. -/
def scanScen1At (s : List Char) (i : Nat) : Option Char :=
  if tokAtB scenTok s i then
    match s[i+8]? with
    | some c =>
      if isScenLetter c then
        match s[i+9]? with
        | some d => if isSep d then some c.toUpper else none
        | none => some c.toUpper
      else none
    | none => none
  else none

/-- Match of pattern 2, `Scenario\s+([ABCD])`, anchored at `i`. -/
def scanScen2At (s : List Char) (i : Nat) : Option Char :=
  if tokAtB scenTok s i then
    if (s[i+8]?).any isWS then
      match s[(i+8) + wsRun (s.drop (i+8))]? with
      | some c => if isScenLetter c then some c.toUpper else none
      | none => none
    else none
  else none

/-- Match of pattern 3, `[ABCD]\s*-\s*Scenario\s+([ABCD])`, anchored at `i`;
returns the second (post-"Scenario") letter. -/
def scanScen3At (s : List Char) (i : Nat) : Option Char :=
  match s[i]? with
  | some c0 =>
    if isScenLetter c0 then
      if s[(i+1) + wsRun (s.drop (i+1))]? == some '-' then
        let j2 := ((i+1) + wsRun (s.drop (i+1))) + 1 + wsRun (s.drop ((i+1) + wsRun (s.drop (i+1)) + 1))
        if tokAtB scenTok s j2 then
          if (s[j2+8]?).any isWS then
            match s[(j2+8) + wsRun (s.drop (j2+8))]? with
            | some c => if isScenLetter c then some c.toUpper else none
            | none => none
          else none
        else none
      else none
    else none
  | none => none

/-- Match of pattern 4, `re.match(r'^([ABCD])[\s_-]', category)` — note the
source passes no `re.IGNORECASE` flag for this pattern. -/
def scanScen4 (s : List Char) : Option Char :=
  match s with
  | c :: d :: _ =>
    if (c == 'A' || c == 'B' || c == 'C' || c == 'D') && isSep d then some c else none
  | _ => none

/-- Leftmost search of pattern 1 over the whole string. -/
def detect_scenario_p1 (s : List Char) : Option Char :=
  (List.range (s.length + 1)).findSome? (scanScen1At s)

/-- Leftmost search of pattern 2 over the whole string. -/
def detect_scenario_p2 (s : List Char) : Option Char :=
  (List.range (s.length + 1)).findSome? (scanScen2At s)

/-- Leftmost search of pattern 3 over the whole string. -/
def detect_scenario_p3 (s : List Char) : Option Char :=
  (List.range (s.length + 1)).findSome? (scanScen3At s)

/-- Embeds `detect_scenario` of src/utils/detector.py: the four patterns are
tried in order and the first match wins. -/
def detect_scenario (category : String) : Option String :=
  let s := category.data
  match detect_scenario_p1 s with
  | some c => some (String.mk [c])
  | none =>
  match detect_scenario_p2 s with
  | some c => some (String.mk [c])
  | none =>
  match detect_scenario_p3 s with
  | some c => some (String.mk [c])
  | none =>
  match scanScen4 s with
  | some c => some (String.mk [c])
  | none => none

/-- The ordered discipline token list of `detect_discipline`; RIBp is checked
before RIB. -/
def disciplines : List String := ["RIBp", "RIB", "RIV", "ARK", "RIE"]

/-- Embeds `detect_discipline`: the first token of the ordered list that occurs
bounded by separators or string edges (pattern
`(?:^|[\s_-])TOK(?:[\s_-]|$)`, case-insensitive) is returned. -/
def detect_discipline (category : String) : Option String :=
  disciplines.find? fun d => occBddB d.data category.data

/-- The character class `[3789]` of the MMI code patterns. -/
def mmiDigit (c : Char) : Bool := c == '3' || c == '7' || c == '8' || c == '9'

/-- Match of the fragment `[3789]00` anchored at `k`; returns the code. -/
def codeAt (s : List Char) (k : Nat) : Option String :=
  match s[k]?, s[k+1]?, s[k+2]? with
  | some a, some b, some c =>
    if mmiDigit a && b == '0' && c == '0' then some (String.mk [a, b, c]) else none
  | _, _, _ => none

/-- Match of pattern `MMI[\s_]?([3789]00)` anchored at `i`. -/
def scanMmi1At (s : List Char) (i : Nat) : Option String :=
  if tokAtB "MMI".data s i then
    match s[i+3]? with
    | some d => if isSepU d then codeAt s (i+4) else codeAt s (i+3)
    | none => none
  else none

/-- Match of pattern `(?:^|[\s_-])([3789]00)(?:[\s_-]|$)` anchored at the code
position `j`. -/
def scanMmi2At (s : List Char) (j : Nat) : Option String :=
  match codeAt s j with
  | some code => if boundLB s j && boundRB s (j+3) then some code else none
  | none => none

/-- Leftmost search of the `MMI` marker pattern. -/
def detect_mmi_p1 (s : List Char) : Option String :=
  (List.range (s.length + 1)).findSome? (scanMmi1At s)

/-- Leftmost search of the standalone bounded code pattern. -/
def detect_mmi_p2 (s : List Char) : Option String :=
  (List.range (s.length + 1)).findSome? (scanMmi2At s)

/-- Embeds `detect_mmi`: the two code patterns first, then the keyword
fallback on the lowercased string, in the source's order.  The
`'existing waste' in category_lower` check of the source is a plain substring
test; every other keyword check uses the bounded pattern. -/
def detect_mmi (category : String) : Option String :=
  let s := category.data
  match detect_mmi_p1 s with
  | some code => some code
  | none =>
  match detect_mmi_p2 s with
  | some code => some code
  | none =>
  let ls := s.map lc
  if occTokB "existing waste".data ls then some "900"
  else if occBddB "rives".data ls || occBddB "riving".data ls ||
      occBddB "demolish".data ls || occBddB "demo".data ls then some "900"
  else if occBddB "reused".data ls then some "800"
  else if occBddB "gjenbruk".data ls || occBddB "gjen".data ls then some "800"
  else if occBddB "existing".data ls then some "700"
  else if occBddB "eksisterende".data ls || occBddB "beholdes".data ls ||
      occBddB "eks".data ls || occBddB "kept".data ls then some "700"
  else if occBddB "new".data ls then some "300"
  else if occBddB "nybygg".data ls || occBddB "ny".data ls then some "300"
  else none

/-- Embeds `get_mmi_label`, the fixed `MMI_MAPPING` lookup. -/
def get_mmi_label (mmi_code : Option String) : String :=
  match mmi_code with
  | some "300" => "NY"
  | some "700" => "EKS"
  | some "800" => "GJEN"
  | some "900" => "RIVES"
  | _ => "UKJENT"

/-- Result record of `detect_all`. -/
structure Classification where
  scenario : Option String
  discipline : Option String
  mmi_code : Option String
  mmi_label : String
  original_category : String
deriving DecidableEq, Repr

/-- Embeds `detect_all`: the three detectors composed independently. -/
def detect_all (category : String) : Classification :=
  { scenario := detect_scenario category
    discipline := detect_discipline category
    mmi_code := detect_mmi category
    mmi_label := get_mmi_label (detect_mmi category)
    original_category := category }

/-- Match of the summary pattern `RAMB.?LL` (case-insensitive; `.` is any
character but a newline, `?` is greedy-optional) anchored at `i`. -/
def rambAt (s : List Char) (i : Nat) : Bool :=
  tokAtB "RAMB".data s i &&
    (((s[i+4]?).any (fun c => c != '\n') && tokAtB "LL".data s (i+5)) ||
      tokAtB "LL".data s (i+4))

/-- Match of the summary pattern `^S\d+\s*-` (case-insensitive, anchored at the
string start). -/
def sNumAt (s : List Char) : Bool :=
  match s with
  | c :: rest =>
    (lc c == 's') && decide (1 ≤ digitRun rest) &&
      (s[(1 + digitRun rest) + wsRun (s.drop (1 + digitRun rest))]? == some '-')
  | [] => false

/-- Embeds `is_summary_row`: any of the five summary indicator patterns. -/
def is_summary_row (category : String) : Bool :=
  let s := category.data
  ((List.range (s.length + 1)).any (rambAt s)) || sNumAt s ||
    occTokB "Total".data s || occTokB "Sum".data s || occTokB "Totalt".data s

/-! ## Ingestor (src/utils/data_parser.py, `load_excel_file`) -/

/-- A spreadsheet cell as seen by the ingest pipeline: a numeric value, a text
value, or an empty cell (pandas `NaN`).  Pandas floats are modelled exactly by
rationals. -/
inductive Cell where
  | num (q : ℚ)
  | str (s : String)
  | blank
deriving DecidableEq, Repr

/-- Numeric value of a digit list read in base 10. -/
def digitsVal (l : List Char) : Nat := l.foldl (fun a c => a * 10 + (c.toNat - 48)) 0

/-- Parse of a plain decimal literal, modelling `pd.to_numeric` on text cells
for the sign/integer/fraction forms; any other text is unparsable (`None`,
which `errors='coerce'` turns into `NaN`). -/
def parseNum (s : String) : Option ℚ :=
  let go : List Char → Option ℚ := fun l =>
    match l.span Char.isDigit with
    | (ds, rest) =>
      if ds.isEmpty then none
      else
        match rest with
        | [] => some (digitsVal ds)
        | '.' :: fs =>
          if fs.all Char.isDigit then
            some ((digitsVal ds : ℚ) + (digitsVal fs : ℚ) / ((10 : ℚ) ^ fs.length))
          else none
        | _ => none
  match s.data with
  | '-' :: rest => (go rest).map (fun q => -q)
  | '+' :: rest => go rest
  | l => go l

/-- Embeds `pd.to_numeric(col, errors='coerce').fillna(dflt)` for one cell. -/
def cellToNum (c : Cell) (dflt : ℚ) : ℚ :=
  match c with
  | .num q => q
  | .str s => (parseNum s).getD dflt
  | .blank => dflt

/-- Category text of a cell.  An empty cell is `NaN` and its row is dropped;
text cells carry their string.  (Numeric category cells, which pandas would
render via `astype(str)`, are outside the model — no claim involves them.) -/
def categoryOf (c : Cell) : Option String :=
  match c with
  | .str s => some s
  | _ => none

/-- Python `str.strip()` on a char list (whitespace removed from both ends). -/
def pyStrip (l : List Char) : List Char :=
  ((l.dropWhile isWS).reverse.dropWhile isWS).reverse

/-- Case-sensitive suffix test on char lists (`col_str.endswith(suf)`). -/
def endsWithB (suf l : List Char) : Bool :=
  decide (suf.length ≤ l.length) && (l.drop (l.length - suf.length) == suf)

/-- Declarative counterpart of `endsWithB`. -/
def EndsW (suf l : List Char) : Prop := ∃ pre, l = pre ++ suf

theorem endsWithB_iff (suf l : List Char) : endsWithB suf l = true ↔ EndsW suf l := by
  unfold endsWithB EndsW
  rw [Bool.and_eq_true, decide_eq_true_iff, beq_iff_eq]
  constructor
  · rintro ⟨hle, hdrop⟩
    refine ⟨l.take (l.length - suf.length), ?_⟩
    conv_lhs => rw [← List.take_append_drop (l.length - suf.length) l]
    rw [hdrop]
  · rintro ⟨pre, rfl⟩
    have hlen : (pre ++ suf).length - suf.length = pre.length := by
      simp [List.length_append]
    constructor
    · simp [List.length_append]
    · rw [hlen, List.drop_append_eq_append_drop]
      simp

instance (suf l : List Char) : Decidable (EndsW suf l) :=
  decidable_of_iff (endsWithB suf l = true) (endsWithB_iff suf l)

/-- Embeds the column-renaming rule of `load_excel_file`: the canonical column
a header resolves to, if any.  The branches mirror the source's
`if/elif` chain; the last branch's `col == df.columns[0]` test makes the first
column fall back to the category column. -/
def canonicalOf (headers : List String) (h : String) : Option String :=
  let t := pyStrip h.data
  if occTokB "construction".data t || endsWithB "(A)".data t then some "construction_a"
  else if occTokB "operation".data t || endsWithB "(B)".data t then some "operation_b"
  else if occTokB "end".data t || endsWithB "(C)".data t then some "end_of_life_c"
  else if occTokB "category".data t || headers.head? == some h then some "category"
  else none

/-- Index of the first source column resolving to a canonical column. -/
def resolveIdx (headers : List String) (canonical : String) : Option Nat :=
  headers.findIdx? fun h => canonicalOf headers h == some canonical

/-- The required canonical columns, in the source's order. -/
def required_cols : List String := ["category", "construction_a", "operation_b", "end_of_life_c"]

/-- The required canonical columns that cannot be resolved from the headers —
the payload of the schema error. -/
def missingCols (headers : List String) : List String :=
  required_cols.filter fun rc => (resolveIdx headers rc).isNone

/-- Index of a surviving (un-renamed) source column literally named
`weighting`, if any — the `'weighting' in df.columns` check after renaming. -/
def weightingIdx (headers : List String) : Option Nat :=
  headers.findIdx? fun h => (canonicalOf headers h).isNone && h == "weighting"

/-- One ingested row, mirroring the data-frame columns of `load_excel_file`. -/
structure Item where
  category : String
  construction_a : ℚ
  operation_b : ℚ
  end_of_life_c : ℚ
  is_summary : Bool
  suggested_scenario : Option String
  suggested_discipline : Option String
  suggested_mmi_code : Option String
  suggested_mmi_label : String
  mapped_scenario : Option String
  mapped_discipline : Option String
  mapped_mmi_code : Option String
  excluded : Bool
  total_gwp_base : ℚ
  weighting : ℚ
  total_gwp : ℚ
  row_id : Nat
deriving DecidableEq, Repr

/-- Embeds `df['weighting'].clip(lower=0, upper=100)` for one value. -/
def clip01 (w : ℚ) : ℚ := min 100 (max 0 w)

/-- Builds one `Item` from the resolved cells of one surviving row, mirroring
the per-row computations of `load_excel_file` (detection suggestions, mapped
fields seeded from suggestions, exclusion seeding, numeric coercion, base and
weighted totals, row id). -/
def buildItem (cat : String) (a b c : Cell) (w : Option Cell) (rid : Nat) : Item :=
  let av := cellToNum a 0
  let bv := cellToNum b 0
  let cv := cellToNum c 0
  let base := av + bv + cv
  let wv := clip01 (match w with | some wc => cellToNum wc 100 | none => 100)
  let det := detect_all cat
  let summ := is_summary_row cat
  let lcat := cat.data.map lc
  let noise := occTokB "utdatert".data lcat || occTokB "copy".data lcat ||
    occTokB "kopi".data lcat
  { category := cat
    construction_a := av
    operation_b := bv
    end_of_life_c := cv
    is_summary := summ
    suggested_scenario := det.scenario
    suggested_discipline := det.discipline
    suggested_mmi_code := det.mmi_code
    suggested_mmi_label := det.mmi_label
    mapped_scenario := det.scenario
    mapped_discipline := det.discipline
    mapped_mmi_code := det.mmi_code
    excluded := summ || noise
    total_gwp_base := base
    weighting := wv
    total_gwp := base * (wv / 100)
    row_id := rid }

/-- Embeds `load_excel_file`: header resolution with atomic schema failure,
category-row filtering, and per-row ingestion.  The table is a header list
plus rectangular rows of cells. -/
def load_excel_file (headers : List String) (rows : List (List Cell)) :
    Except (List String) (List Item) :=
  let missing := missingCols headers
  if missing.isEmpty then
    let ic := (resolveIdx headers "category").getD 0
    let ia := (resolveIdx headers "construction_a").getD 0
    let ib := (resolveIdx headers "operation_b").getD 0
    let ieol := (resolveIdx headers "end_of_life_c").getD 0
    let iw := weightingIdx headers
    let kept := rows.filterMap fun r =>
      match categoryOf ((r[ic]?).getD Cell.blank) with
      | some catStr => if pyStrip catStr.data == [] then none else some (catStr, r)
      | none => none
    Except.ok <| kept.enum.map fun p =>
      buildItem p.2.1 ((p.2.2[ia]?).getD Cell.blank) ((p.2.2[ib]?).getD Cell.blank)
        ((p.2.2[ieol]?).getD Cell.blank)
        (iw.map fun k => (p.2.2[k]?).getD Cell.blank) p.1
  else Except.error missing

/-- Embeds the post-edit recomputation of src/main.py (the
`Recalculate all weighted GWP values after edits` block): raw edited weighting
values are coerced with default 100, clipped to [0,100], and `total_gwp` is
rederived for every row. -/
def apply_weighting_edits (items : List Item) (upd : Nat → Option Cell) : List Item :=
  items.map fun it =>
    let wraw : ℚ := match upd it.row_id with
      | some cell => cellToNum cell 100
      | none => it.weighting
    let w := clip01 wraw
    { it with weighting := w, total_gwp := it.total_gwp_base * (w / 100) }

/-! ## Aggregator and Comparator (src/utils/data_parser.py) -/

/-- The rollup record carried at every level of the aggregate tree. -/
structure Totals where
  construction_a : ℚ
  operation_b : ℚ
  end_of_life_c : ℚ
  total_gwp : ℚ
  count : Nat
deriving DecidableEq, Repr

/-- Elementwise sums and count over a list of items. -/
def sumTotals (l : List Item) : Totals :=
  { construction_a := (l.map Item.construction_a).sum
    operation_b := (l.map Item.operation_b).sum
    end_of_life_c := (l.map Item.end_of_life_c).sum
    total_gwp := (l.map Item.total_gwp).sum
    count := l.length }

/-- MMI-level node of the aggregate tree (label plus inline totals, as the
source stores them). -/
structure MmiNode where
  label : String
  construction_a : ℚ
  operation_b : ℚ
  end_of_life_c : ℚ
  total_gwp : ℚ
  count : Nat
deriving DecidableEq, Repr

/-- Discipline-level node of the aggregate tree. -/
structure DiscNode where
  mmi_categories : List (String × MmiNode)
  total : Totals
deriving DecidableEq, Repr

/-- Scenario-level node of the aggregate tree. -/
structure ScenNode where
  disciplines : List (String × DiscNode)
  total : Totals
deriving DecidableEq, Repr

/-- First-occurrence deduplication, as `pandas.Series.unique` yields the
distinct grouping keys in order of appearance. -/
def uniqAux (seen : List String) : List String → List String
  | [] => []
  | x :: xs => if x ∈ seen then uniqAux seen xs else x :: uniqAux (x :: seen) xs

/-- Distinct values of a key list, first occurrences first. -/
def uniqKeys (l : List String) : List String := uniqAux [] l

/-- The active, fully-mapped rows: `df_active` then `df_mapped` of
`aggregate_by_mapping`. -/
def mappedItems (items : List Item) : List Item :=
  (items.filter fun it => !it.excluded).filter fun it =>
    it.mapped_scenario.isSome && it.mapped_discipline.isSome && it.mapped_mmi_code.isSome

/-- Embeds `aggregate_by_mapping`: group the active fully-mapped rows by
mapped scenario, then discipline, then MMI code, with sum/count rollups at
every level; the tree is an association list keyed like the source's nested
dictionaries. -/
def aggregate_by_mapping (items : List Item) : List (String × ScenNode) :=
  let dfm := mappedItems items
  (uniqKeys (dfm.filterMap Item.mapped_scenario)).map fun scen =>
    let sd := dfm.filter fun it => decide (it.mapped_scenario = some scen)
    (scen,
      { total := sumTotals sd
        disciplines := (uniqKeys (sd.filterMap Item.mapped_discipline)).map fun d =>
          let dd := sd.filter fun it => decide (it.mapped_discipline = some d)
          (d,
            { total := sumTotals dd
              mmi_categories := (uniqKeys (dd.filterMap Item.mapped_mmi_code)).map fun m =>
                let md := dd.filter fun it => decide (it.mapped_mmi_code = some m)
                (m,
                  { label := get_mmi_label (some m)
                    construction_a := (md.map Item.construction_a).sum
                    operation_b := (md.map Item.operation_b).sum
                    end_of_life_c := (md.map Item.end_of_life_c).sum
                    total_gwp := (md.map Item.total_gwp).sum
                    count := md.length }) }) })

/-- The four tracked metrics of the comparison functions. -/
inductive Metric where
  | construction_a
  | operation_b
  | end_of_life_c
  | total_gwp
deriving DecidableEq, Repr

/-- Metric projection out of a totals record. -/
def Totals.get (t : Totals) : Metric → ℚ
  | .construction_a => t.construction_a
  | .operation_b => t.operation_b
  | .end_of_life_c => t.end_of_life_c
  | .total_gwp => t.total_gwp

/-- Result record of `compare_scenarios`, with one difference and one ratio
entry per tracked metric, as in the source's `difference`/`ratio` dicts. -/
structure Comparison where
  base_scenario : String
  compare_scenario : String
  diff_construction_a : ℚ
  diff_operation_b : ℚ
  diff_end_of_life_c : ℚ
  diff_total_gwp : ℚ
  ratio_construction_a : Option ℚ
  ratio_operation_b : Option ℚ
  ratio_end_of_life_c : Option ℚ
  ratio_total_gwp : Option ℚ
deriving DecidableEq, Repr

/-- Difference entry of a comparison, per metric. -/
def Comparison.difference (r : Comparison) : Metric → ℚ
  | .construction_a => r.diff_construction_a
  | .operation_b => r.diff_operation_b
  | .end_of_life_c => r.diff_end_of_life_c
  | .total_gwp => r.diff_total_gwp

/-- Ratio entry of a comparison, per metric. -/
def Comparison.ratio (r : Comparison) : Metric → Option ℚ
  | .construction_a => r.ratio_construction_a
  | .operation_b => r.ratio_operation_b
  | .end_of_life_c => r.ratio_end_of_life_c
  | .total_gwp => r.ratio_total_gwp

/-- Association-list lookup keyed by string equality, modelling access to the
source's nested dictionaries (`structure[scenario]`, membership tests
included). -/
def alookup {β : Type} (key : String) : List (String × β) → Option β
  | [] => none
  | (k, v) :: rest => if key = k then some v else alookup key rest

/-- The per-metric ratio rule of `compare_scenarios`: `(compare/base)*100`
when the base is nonzero, else the explicit null. -/
def ratioOf (b c : ℚ) : Option ℚ := if b ≠ 0 then some ((c / b) * 100) else none

/-- Embeds `compare_scenarios`: empty result when either scenario key is
absent from the tree, otherwise per-metric difference and guarded ratio. -/
def compare_scenarios (tree : List (String × ScenNode)) (base compare : String) :
    Option Comparison :=
  match alookup base tree, alookup compare tree with
  | some bn, some cn =>
    some { base_scenario := base
           compare_scenario := compare
           diff_construction_a := cn.total.construction_a - bn.total.construction_a
           diff_operation_b := cn.total.operation_b - bn.total.operation_b
           diff_end_of_life_c := cn.total.end_of_life_c - bn.total.end_of_life_c
           diff_total_gwp := cn.total.total_gwp - bn.total.total_gwp
           ratio_construction_a := ratioOf bn.total.construction_a cn.total.construction_a
           ratio_operation_b := ratioOf bn.total.operation_b cn.total.operation_b
           ratio_end_of_life_c := ratioOf bn.total.end_of_life_c cn.total.end_of_life_c
           ratio_total_gwp := ratioOf bn.total.total_gwp cn.total.total_gwp }
  | _, _ => none

/-- One output row of `get_all_disciplines_comparison`. -/
structure DiscCompRow where
  discipline : String
  base_total : ℚ
  compare_total : ℚ
  difference : ℚ
  ratio_pct : Option ℚ
deriving DecidableEq, Repr

/-- Insertion of a string into a sorted list (code-point order, as Python
`sorted` on strings). -/
def insortStr (x : String) : List String → List String
  | [] => [x]
  | y :: ys => if x < y then x :: y :: ys else y :: insortStr x ys

/-- Insertion sort over strings, modelling `sorted(...)`. -/
def sortStr : List String → List String
  | [] => []
  | x :: xs => insortStr x (sortStr xs)

/-- Embeds `get_all_disciplines_comparison`: over the sorted union of the two
scenarios' discipline keys, the GWP totals of each side (0 when the side lacks
the discipline), their difference, and a ratio guarded by `base_total > 0` as
in the source. -/
def get_all_disciplines_comparison (tree : List (String × ScenNode))
    (base compare : String) : Option (List DiscCompRow) :=
  match alookup base tree, alookup compare tree with
  | some bn, some cn =>
    let all_disciplines :=
      sortStr (uniqKeys ((bn.disciplines.map Prod.fst) ++ (cn.disciplines.map Prod.fst)))
    some <| all_disciplines.map fun d =>
      let base_total := match alookup d bn.disciplines with
        | some dn => dn.total.total_gwp
        | none => 0
      let compare_total := match alookup d cn.disciplines with
        | some dn => dn.total.total_gwp
        | none => 0
      { discipline := d
        base_total := base_total
        compare_total := compare_total
        difference := compare_total - base_total
        ratio_pct := if base_total > 0 then some ((compare_total / base_total) * 100) else none }
  | _, _ => none

/-! ## Concrete data for the end-to-end scenario -/

/-- Headers of the Reduzer export modelled in the end-to-end scenario. -/
def c1Headers : List String :=
  ["category", "Construction (A)", "Operation (B)", "End-of-life (C)"]

/-- The four rows of the end-to-end scenario. -/
def c1Rows : List (List Cell) :=
  [[.str "Scenario A - RIV - New", .num 1000, .num 0, .num 0],
   [.str "Scenario C - RIV - New", .num 800, .num 0, .num 0],
   [.str "Scenario C - RIV - Existing", .num 100, .num 0, .num 0],
   [.str "Scenario C - RIV - Reused", .num 50, .num 0, .num 0]]

/-- Items of the end-to-end scenario, ingested through `load_excel_file`. -/
def c1Items : List Item := (load_excel_file c1Headers c1Rows).toOption.getD []

/-- Aggregate tree of the end-to-end scenario. -/
def c1Tree : List (String × ScenNode) := aggregate_by_mapping c1Items


/-! ## Helper lemmas -/

theorem filter_cons_eval {α : Type} (p : α → Bool) (a : α) (l : List α) :
    (a :: l).filter p = if p a = true then a :: l.filter p else l.filter p := by
  rw [List.filter_cons]

theorem alookup_map_keyed {β : Type} (keys : List String) (f : String → β) (s : String)
    (h : s ∈ keys) : alookup s (keys.map fun k => (k, f k)) = some (f s) := by
  induction keys with
  | nil => simp at h
  | cons k ks ih =>
    rw [List.map_cons, alookup]
    by_cases hk : s = k
    · subst hk; simp
    · rw [if_neg hk]
      rcases List.mem_cons.mp h with h' | h'
      · exact absurd h' hk
      · exact ih h'

theorem alookup_map_keyed_inv {β : Type} (keys : List String) (f : String → β) (s : String)
    (v : β) (h : alookup s (keys.map fun k => (k, f k)) = some v) : v = f s := by
  induction keys with
  | nil => simp [alookup] at h
  | cons k ks ih =>
    rw [List.map_cons, alookup] at h
    by_cases hk : s = k
    · rw [if_pos hk, Option.some.injEq] at h
      rw [← h, hk]
    · rw [if_neg hk] at h
      exact ih h

/-- Scenario-level rollup of the aggregate tree, extracted through the
association-list lookup. -/
theorem aggregate_total_alookup (items : List Item) (s : String)
    (h : s ∈ uniqKeys ((mappedItems items).filterMap Item.mapped_scenario)) :
    (alookup s (aggregate_by_mapping items)).map ScenNode.total =
      some (sumTotals ((mappedItems items).filter fun it =>
        decide (it.mapped_scenario = some s))) := by
  simp only [aggregate_by_mapping]
  rw [alookup_map_keyed _ _ _ h, Option.map_some']

theorem option_map_total_gwp (o : Option ScenNode) :
    (o.map fun sn => sn.total.total_gwp) = (o.map ScenNode.total).map Totals.total_gwp := by
  cases o <;> rfl

/-- Evaluation of `compare_scenarios` on the weightedTotal metric from the two
scenario-level rollups. -/
theorem compare_scenarios_map_total (tree : List (String × ScenNode)) (b c : String)
    (tb tc : Totals)
    (hb : (alookup b tree).map ScenNode.total = some tb)
    (hc : (alookup c tree).map ScenNode.total = some tc) :
    ((compare_scenarios tree b c).map fun r => (r.diff_total_gwp, r.ratio_total_gwp)) =
      some (tc.total_gwp - tb.total_gwp, ratioOf tb.total_gwp tc.total_gwp) := by
  cases hab : alookup b tree with
  | none => rw [hab] at hb; simp at hb
  | some bn =>
    cases hac : alookup c tree with
    | none => rw [hac] at hc; simp at hc
    | some cn =>
      rw [hab, Option.map_some', Option.some.injEq] at hb
      rw [hac, Option.map_some', Option.some.injEq] at hc
      simp only [compare_scenarios, hab, hac, Option.map_some']
      rw [hb, hc]

/-! ## C1: the end-to-end scenario -/

/-- The expected first ingested row of the end-to-end scenario. -/
def c1ItemA : Item :=
  { category := "Scenario A - RIV - New", construction_a := 1000, operation_b := 0,
    end_of_life_c := 0, is_summary := false, suggested_scenario := some "A",
    suggested_discipline := some "RIV", suggested_mmi_code := some "300",
    suggested_mmi_label := "NY", mapped_scenario := some "A",
    mapped_discipline := some "RIV", mapped_mmi_code := some "300", excluded := false,
    total_gwp_base := 1000, weighting := 100, total_gwp := 1000, row_id := 0 }

/-- The expected second ingested row of the end-to-end scenario. -/
def c1ItemC1 : Item :=
  { category := "Scenario C - RIV - New", construction_a := 800, operation_b := 0,
    end_of_life_c := 0, is_summary := false, suggested_scenario := some "C",
    suggested_discipline := some "RIV", suggested_mmi_code := some "300",
    suggested_mmi_label := "NY", mapped_scenario := some "C",
    mapped_discipline := some "RIV", mapped_mmi_code := some "300", excluded := false,
    total_gwp_base := 800, weighting := 100, total_gwp := 800, row_id := 1 }

/-- The expected third ingested row of the end-to-end scenario. -/
def c1ItemC2 : Item :=
  { category := "Scenario C - RIV - Existing", construction_a := 100, operation_b := 0,
    end_of_life_c := 0, is_summary := false, suggested_scenario := some "C",
    suggested_discipline := some "RIV", suggested_mmi_code := some "700",
    suggested_mmi_label := "EKS", mapped_scenario := some "C",
    mapped_discipline := some "RIV", mapped_mmi_code := some "700", excluded := false,
    total_gwp_base := 100, weighting := 100, total_gwp := 100, row_id := 2 }

/-- The expected fourth ingested row of the end-to-end scenario. -/
def c1ItemC3 : Item :=
  { category := "Scenario C - RIV - Reused", construction_a := 50, operation_b := 0,
    end_of_life_c := 0, is_summary := false, suggested_scenario := some "C",
    suggested_discipline := some "RIV", suggested_mmi_code := some "800",
    suggested_mmi_label := "GJEN", mapped_scenario := some "C",
    mapped_discipline := some "RIV", mapped_mmi_code := some "800", excluded := false,
    total_gwp_base := 50, weighting := 100, total_gwp := 50, row_id := 3 }

theorem c1Items_eq : c1Items = [c1ItemA, c1ItemC1, c1ItemC2, c1ItemC3] := by
  have h0 : buildItem "Scenario A - RIV - New" (Cell.num 1000) (Cell.num 0) (Cell.num 0)
      none 0 = c1ItemA := by
    simp only [buildItem, c1ItemA]
    rw [Item.mk.injEq]
    refine ⟨by decide, by norm_num [cellToNum], by norm_num [cellToNum],
      by norm_num [cellToNum], by decide, by decide, by decide, by decide, by decide,
      by decide, by decide, by decide, by decide, by norm_num [cellToNum],
      by norm_num [clip01, cellToNum, min_def, max_def],
      by norm_num [clip01, cellToNum, min_def, max_def], by decide⟩
  have h1 : buildItem "Scenario C - RIV - New" (Cell.num 800) (Cell.num 0) (Cell.num 0)
      none 1 = c1ItemC1 := by
    simp only [buildItem, c1ItemC1]
    rw [Item.mk.injEq]
    refine ⟨by decide, by norm_num [cellToNum], by norm_num [cellToNum],
      by norm_num [cellToNum], by decide, by decide, by decide, by decide, by decide,
      by decide, by decide, by decide, by decide, by norm_num [cellToNum],
      by norm_num [clip01, cellToNum, min_def, max_def],
      by norm_num [clip01, cellToNum, min_def, max_def], by decide⟩
  have h2 : buildItem "Scenario C - RIV - Existing" (Cell.num 100) (Cell.num 0) (Cell.num 0)
      none 2 = c1ItemC2 := by
    simp only [buildItem, c1ItemC2]
    rw [Item.mk.injEq]
    refine ⟨by decide, by norm_num [cellToNum], by norm_num [cellToNum],
      by norm_num [cellToNum], by decide, by decide, by decide, by decide, by decide,
      by decide, by decide, by decide, by decide, by norm_num [cellToNum],
      by norm_num [clip01, cellToNum, min_def, max_def],
      by norm_num [clip01, cellToNum, min_def, max_def], by decide⟩
  have h3 : buildItem "Scenario C - RIV - Reused" (Cell.num 50) (Cell.num 0) (Cell.num 0)
      none 3 = c1ItemC3 := by
    simp only [buildItem, c1ItemC3]
    rw [Item.mk.injEq]
    refine ⟨by decide, by norm_num [cellToNum], by norm_num [cellToNum],
      by norm_num [cellToNum], by decide, by decide, by decide, by decide, by decide,
      by decide, by decide, by decide, by decide, by norm_num [cellToNum],
      by norm_num [clip01, cellToNum, min_def, max_def],
      by norm_num [clip01, cellToNum, min_def, max_def], by decide⟩
  calc c1Items
      = [buildItem "Scenario A - RIV - New" (Cell.num 1000) (Cell.num 0) (Cell.num 0) none 0,
         buildItem "Scenario C - RIV - New" (Cell.num 800) (Cell.num 0) (Cell.num 0) none 1,
         buildItem "Scenario C - RIV - Existing" (Cell.num 100) (Cell.num 0) (Cell.num 0) none 2,
         buildItem "Scenario C - RIV - Reused" (Cell.num 50) (Cell.num 0) (Cell.num 0) none 3] := rfl
    _ = [c1ItemA, c1ItemC1, c1ItemC2, c1ItemC3] := by rw [h0, h1, h2, h3]

/-- C1: ingesting the four rows "Scenario A - RIV - New" (1000,0,0),
"Scenario C - RIV - New" (800,0,0), "Scenario C - RIV - Existing" (100,0,0),
"Scenario C - RIV - Reused" (50,0,0) — all of which end up with weighting 100
and not excluded — aggregates to scenario A weightedTotal (total_gwp) 1000 and
scenario C weightedTotal 950, and `compare_scenarios tree "A" "C"` yields
difference −50 and ratio 95 on the weightedTotal metric. -/
theorem C1_end_to_end :
    ((alookup "A" c1Tree).map fun sn => sn.total.total_gwp) = some 1000 ∧
    ((alookup "C" c1Tree).map fun sn => sn.total.total_gwp) = some 950 ∧
    ((compare_scenarios c1Tree "A" "C").map fun r => (r.diff_total_gwp, r.ratio_total_gwp)) =
      some (-50, some 95) ∧
    (∀ it ∈ c1Items, it.weighting = 100 ∧ it.excluded = false) := by
  have hTree : c1Tree = aggregate_by_mapping [c1ItemA, c1ItemC1, c1ItemC2, c1ItemC3] := by
    rw [show c1Tree = aggregate_by_mapping c1Items from rfl, c1Items_eq]
  have hA := aggregate_total_alookup [c1ItemA, c1ItemC1, c1ItemC2, c1ItemC3] "A" (by decide)
  have hC := aggregate_total_alookup [c1ItemA, c1ItemC1, c1ItemC2, c1ItemC3] "C" (by decide)
  have hsumA : sumTotals ((mappedItems [c1ItemA, c1ItemC1, c1ItemC2, c1ItemC3]).filter
      fun it => decide (it.mapped_scenario = some "A")) = ⟨1000, 0, 0, 1000, 1⟩ := by
    simp [filter_cons_eval, mappedItems, sumTotals, c1ItemA, c1ItemC1, c1ItemC2, c1ItemC3]
  have hsumC : sumTotals ((mappedItems [c1ItemA, c1ItemC1, c1ItemC2, c1ItemC3]).filter
      fun it => decide (it.mapped_scenario = some "C")) = ⟨950, 0, 0, 950, 3⟩ := by
    simp [filter_cons_eval, mappedItems, sumTotals, c1ItemA, c1ItemC1, c1ItemC2, c1ItemC3]
    norm_num
  rw [hsumA] at hA
  rw [hsumC] at hC
  refine ⟨?_, ?_, ?_, ?_⟩
  · rw [hTree, option_map_total_gwp, hA, Option.map_some']
  · rw [hTree, option_map_total_gwp, hC, Option.map_some']
  · rw [hTree, compare_scenarios_map_total _ _ _ _ _ hA hC, Option.some.injEq]
    rw [Prod.ext_iff]
    constructor
    · norm_num
    · norm_num [ratioOf]
  · rw [c1Items_eq]
    intro it hit
    rcases List.mem_cons.mp hit with rfl | hit
    · exact ⟨rfl, rfl⟩
    rcases List.mem_cons.mp hit with rfl | hit
    · exact ⟨rfl, rfl⟩
    rcases List.mem_cons.mp hit with rfl | hit
    · exact ⟨rfl, rfl⟩
    rcases List.mem_cons.mp hit with rfl | hit
    · exact ⟨rfl, rfl⟩
    simp at hit

/-! ## C2: aggregation rollup sums -/

theorem mappedItems_filter_scen (items : List Item) (s : String) :
    (mappedItems items).filter (fun it => decide (it.mapped_scenario = some s)) =
      items.filter fun it =>
        !it.excluded && decide (it.mapped_scenario = some s) &&
        it.mapped_discipline.isSome && it.mapped_mmi_code.isSome := by
  unfold mappedItems
  rw [List.filter_filter, List.filter_filter]
  apply List.filter_congr
  intro it _
  cases hms : it.mapped_scenario with
  | none => simp
  | some x =>
    simp only [hms, Option.isSome_some, Bool.true_and, Bool.and_true]
    cases hd : (some x == some s : Bool) <;>
      simp [Bool.and_assoc, Bool.and_comm, Bool.and_left_comm]

theorem scen_filter_disc (items : List Item) (s d : String) :
    ((mappedItems items).filter (fun it => decide (it.mapped_scenario = some s))).filter
        (fun it => decide (it.mapped_discipline = some d)) =
      items.filter fun it =>
        !it.excluded && decide (it.mapped_scenario = some s) &&
        decide (it.mapped_discipline = some d) && it.mapped_mmi_code.isSome := by
  rw [mappedItems_filter_scen, List.filter_filter]
  apply List.filter_congr
  intro it _
  cases hmd : it.mapped_discipline with
  | none => simp
  | some x =>
    simp only [hmd, Option.isSome_some, Bool.true_and, Bool.and_true]
    cases hd : (decide (some x = some d) : Bool) <;>
      simp_all [Bool.and_assoc, Bool.and_comm, Bool.and_left_comm]

theorem disc_filter_mmi (items : List Item) (s d m : String) :
    (((mappedItems items).filter (fun it => decide (it.mapped_scenario = some s))).filter
        (fun it => decide (it.mapped_discipline = some d))).filter
        (fun it => decide (it.mapped_mmi_code = some m)) =
      items.filter fun it =>
        !it.excluded && decide (it.mapped_scenario = some s) &&
        decide (it.mapped_discipline = some d) && decide (it.mapped_mmi_code = some m) := by
  rw [scen_filter_disc, List.filter_filter]
  apply List.filter_congr
  intro it _
  cases hmm : it.mapped_mmi_code with
  | none => simp
  | some x =>
    simp only [hmm, Option.isSome_some, Bool.true_and, Bool.and_true]
    cases hd : (decide (some x = some m) : Bool) <;>
      simp_all [Bool.and_assoc, Bool.and_comm, Bool.and_left_comm]

/-- C2: every node of the aggregate tree carries exactly the elementwise sums
(and count) over its contributing items: those with `excluded = false`, all
three mapped fields non-null, and the mapped key path equal to the node's
key path. -/
theorem C2_aggregation_sums (items : List Item) (s : String) (sn : ScenNode)
    (hs : alookup s (aggregate_by_mapping items) = some sn) :
    sn.total = sumTotals (items.filter fun it =>
        !it.excluded && decide (it.mapped_scenario = some s) &&
        it.mapped_discipline.isSome && it.mapped_mmi_code.isSome) ∧
    ∀ d dn, alookup d sn.disciplines = some dn →
      dn.total = sumTotals (items.filter fun it =>
          !it.excluded && decide (it.mapped_scenario = some s) &&
          decide (it.mapped_discipline = some d) && it.mapped_mmi_code.isSome) ∧
      ∀ m mn, alookup m dn.mmi_categories = some mn →
        Totals.mk mn.construction_a mn.operation_b mn.end_of_life_c mn.total_gwp mn.count =
          sumTotals (items.filter fun it =>
            !it.excluded && decide (it.mapped_scenario = some s) &&
            decide (it.mapped_discipline = some d) &&
            decide (it.mapped_mmi_code = some m)) := by
  simp only [aggregate_by_mapping] at hs
  have hsn := alookup_map_keyed_inv _ _ _ _ hs
  subst hsn
  constructor
  · rw [mappedItems_filter_scen]
  · intro d dn hd
    have hdn := alookup_map_keyed_inv _ _ _ _ hd
    subst hdn
    constructor
    · rw [scen_filter_disc]
    · intro m mn hm
      have hmn := alookup_map_keyed_inv _ _ _ _ hm
      subst hmn
      rw [disc_filter_mmi]
      rfl

theorem C2_aggregation_sums_witness :
    ∃ sn, alookup "A" (aggregate_by_mapping [c1ItemA]) = some sn ∧
      sn.total = sumTotals ([c1ItemA].filter fun it =>
        !it.excluded && decide (it.mapped_scenario = some "A") &&
        it.mapped_discipline.isSome && it.mapped_mmi_code.isSome) :=
  ⟨_, rfl, (C2_aggregation_sums [c1ItemA] "A" _ rfl).1⟩

/-! ## C4: comparison ratio policy -/

/-- C4: for every tree containing both scenario keys, `compare_scenarios`
computes `difference = compare − base` for each of the four metrics always,
and `ratio = (compare/base) × 100` exactly when the base total is nonzero,
with an explicit null ratio when the base total is zero. -/
theorem C4_zero_denominator_policy (tree : List (String × ScenNode)) (b c : String)
    (bn cn : ScenNode)
    (hb : alookup b tree = some bn) (hc : alookup c tree = some cn) :
    ∃ r, compare_scenarios tree b c = some r ∧
      ∀ m : Metric, r.difference m = cn.total.get m - bn.total.get m ∧
        (bn.total.get m = 0 → r.ratio m = none) ∧
        (bn.total.get m ≠ 0 → r.ratio m = some ((cn.total.get m / bn.total.get m) * 100)) := by
  have hcomp : compare_scenarios tree b c = some
      { base_scenario := b
        compare_scenario := c
        diff_construction_a := cn.total.construction_a - bn.total.construction_a
        diff_operation_b := cn.total.operation_b - bn.total.operation_b
        diff_end_of_life_c := cn.total.end_of_life_c - bn.total.end_of_life_c
        diff_total_gwp := cn.total.total_gwp - bn.total.total_gwp
        ratio_construction_a := ratioOf bn.total.construction_a cn.total.construction_a
        ratio_operation_b := ratioOf bn.total.operation_b cn.total.operation_b
        ratio_end_of_life_c := ratioOf bn.total.end_of_life_c cn.total.end_of_life_c
        ratio_total_gwp := ratioOf bn.total.total_gwp cn.total.total_gwp } := by
    simp only [compare_scenarios, hb, hc]
  refine ⟨_, hcomp, ?_⟩
  intro m
  cases m <;>
    exact ⟨rfl,
      fun h => by
        simp only [Comparison.ratio, ratioOf, Totals.get] at h ⊢
        rw [if_neg (by simp [h])],
      fun h => by
        simp only [Comparison.ratio, ratioOf, Totals.get] at h ⊢
        rw [if_pos h]⟩

/-- A two-scenario tree whose base scenario has a metric total of exactly 0
(construction) and nonzero totals elsewhere. -/
def c4Tree : List (String × ScenNode) :=
  [("A", ⟨[], ⟨0, 5, 0, 5, 1⟩⟩), ("C", ⟨[], ⟨3, 10, 0, 13, 1⟩⟩)]

theorem C4_zero_denominator_policy_witness :
    alookup "A" c4Tree = some ⟨[], ⟨0, 5, 0, 5, 1⟩⟩ ∧
    alookup "C" c4Tree = some ⟨[], ⟨3, 10, 0, 13, 1⟩⟩ ∧
    (∃ r, compare_scenarios c4Tree "A" "C" = some r ∧
      ∀ m : Metric, r.difference m = (⟨[], ⟨3, 10, 0, 13, 1⟩⟩ : ScenNode).total.get m -
          (⟨[], ⟨0, 5, 0, 5, 1⟩⟩ : ScenNode).total.get m ∧
        ((⟨[], ⟨0, 5, 0, 5, 1⟩⟩ : ScenNode).total.get m = 0 → r.ratio m = none) ∧
        ((⟨[], ⟨0, 5, 0, 5, 1⟩⟩ : ScenNode).total.get m ≠ 0 → r.ratio m =
          some (((⟨[], ⟨3, 10, 0, 13, 1⟩⟩ : ScenNode).total.get m /
            (⟨[], ⟨0, 5, 0, 5, 1⟩⟩ : ScenNode).total.get m) * 100))) :=
  ⟨rfl, rfl, C4_zero_denominator_policy c4Tree "A" "C" _ _ rfl rfl⟩

/-! ## C3: the weighting invariant -/

/-- The invariant of the claim: weighting inside [0,100] and `total_gwp`
derived from `total_gwp_base` at the stored weighting. -/
def weightInvariant (it : Item) : Prop :=
  0 ≤ it.weighting ∧ it.weighting ≤ 100 ∧
    it.total_gwp = it.total_gwp_base * (it.weighting / 100)

/-- C3: after ingest and after every weighting edit, each item's weighting
has been clamped to [0,100] and its `total_gwp` rederived as
`total_gwp_base × weighting / 100` — never left stale. -/
theorem C3_weighting_invariant :
    (∀ headers rows items, load_excel_file headers rows = Except.ok items →
      ∀ it ∈ items, weightInvariant it) ∧
    (∀ items upd, ∀ it ∈ apply_weighting_edits items upd, weightInvariant it) := by
  have hclip : ∀ w : ℚ, 0 ≤ clip01 w ∧ clip01 w ≤ 100 := fun w =>
    ⟨le_min (by norm_num) (le_max_left 0 w), min_le_left _ _⟩
  constructor
  · intro headers rows items hload it hit
    unfold load_excel_file at hload
    by_cases hm : (missingCols headers).isEmpty
    · rw [if_pos hm, Except.ok.injEq] at hload
      subst hload
      rw [List.mem_map] at hit
      obtain ⟨p, _, hp⟩ := hit
      subst hp
      exact ⟨(hclip _).1, (hclip _).2, rfl⟩
    · rw [if_neg hm] at hload
      exact Except.noConfusion hload
  · intro items upd it hit
    rw [apply_weighting_edits, List.mem_map] at hit
    obtain ⟨it0, _, hp⟩ := hit
    subst hp
    exact ⟨(hclip _).1, (hclip _).2, rfl⟩

/-- A concrete weighting edit writing the out-of-range raw value 250. -/
def c3Upd : Nat → Option Cell := fun _ => some (Cell.num 250)

theorem C3_weighting_invariant_witness :
    load_excel_file c1Headers c1Rows = Except.ok c1Items ∧
    weightInvariant c1ItemA ∧
    weightInvariant ((apply_weighting_edits [c1ItemA] c3Upd).headD c1ItemA) :=
  ⟨rfl,
   C3_weighting_invariant.1 c1Headers c1Rows c1Items rfl c1ItemA
     (by rw [c1Items_eq]; exact List.mem_cons_self _ _),
   C3_weighting_invariant.2 [c1ItemA] c3Upd _ (by simp [apply_weighting_edits, List.headD])⟩

/-! ## C5: schema atomicity and numeric degradation -/

/-- C5: ingest fails, naming exactly the unresolvable canonical columns, if
and only if at least one required column cannot be resolved; no items are
produced in that case.  An unparsable numeric phase cell never fails the
ingest — it is coerced to 0 (shown on a concrete row whose construction cell
is non-numeric text and whose end-of-life cell is empty). -/
theorem C5_schema_error_atomicity :
    (∀ headers rows, (∃ e, load_excel_file headers rows = Except.error e) ↔
      missingCols headers ≠ []) ∧
    (∀ headers rows e, load_excel_file headers rows = Except.error e →
      e = missingCols headers) ∧
    ((load_excel_file c1Headers
        [[Cell.str "Scenario A - RIV - New", Cell.str "not a number", Cell.num 5,
          Cell.blank]]).map
      (List.map fun it => (it.construction_a, it.operation_b, it.end_of_life_c))) =
      Except.ok [(0, 5, 0)] := by
  refine ⟨?_, ?_, ?_⟩
  · intro headers rows
    constructor
    · rintro ⟨e, he⟩
      intro hm
      unfold load_excel_file at he
      rw [if_pos (by simp [hm])] at he
      exact Except.noConfusion he
    · intro hm
      refine ⟨missingCols headers, ?_⟩
      unfold load_excel_file
      rw [if_neg (by simpa using hm)]
  · intro headers rows e he
    unfold load_excel_file at he
    by_cases hm : (missingCols headers).isEmpty
    · rw [if_pos hm] at he
      exact Except.noConfusion he
    · rw [if_neg hm, Except.error.injEq] at he
      exact he.symm
  · rfl

theorem C5_schema_error_atomicity_witness :
    load_excel_file ["category"] [] =
      Except.error ["construction_a", "operation_b", "end_of_life_c"] ∧
    missingCols ["category"] ≠ [] :=
  ⟨rfl, (C5_schema_error_atomicity.1 ["category"] []).mp ⟨_, rfl⟩⟩

/-! ## C10: the first-column category fallback -/

/-- A header matching one of the phase-column branches of the renaming rule:
it contains construction/operation/end case-insensitively or ends (after
stripping) with `(A)`, `(B)` or `(C)`. -/
def PhasePattern (h : String) : Prop :=
  OccTok "construction".data (pyStrip h.data) ∨ EndsW "(A)".data (pyStrip h.data) ∨
  OccTok "operation".data (pyStrip h.data) ∨ EndsW "(B)".data (pyStrip h.data) ∨
  OccTok "end".data (pyStrip h.data) ∨ EndsW "(C)".data (pyStrip h.data)

/-- C10: the first column always resolves to the canonical category column
exactly when its header matches no phase-column pattern, whatever its text;
consequently a schema failure naming the category column can only happen when
the first column itself resolved to a phase column. -/
theorem C10_first_column_category (h0 : String) (rest : List String) :
    (canonicalOf (h0 :: rest) h0 = some "category" ↔ ¬ PhasePattern h0) ∧
    (∀ rows e, load_excel_file (h0 :: rest) rows = Except.error e → "category" ∈ e →
      PhasePattern h0) := by
  have hiff : canonicalOf (h0 :: rest) h0 = some "category" ↔ ¬ PhasePattern h0 := by
    unfold canonicalOf PhasePattern
    have hhead : ((h0 :: rest).head? == some h0) = true := by simp
    by_cases h1 : (occTokB "construction".data (pyStrip h0.data) ||
        endsWithB "(A)".data (pyStrip h0.data)) = true
    · rw [if_pos h1]
      rw [Bool.or_eq_true, occTokB_iff, endsWithB_iff] at h1
      simp only [Option.some.injEq]
      constructor
      · intro h; exact absurd h (by decide)
      · intro h
        exact absurd (Or.inl (h1.elim Or.inl (fun x => Or.inr (Or.inl x)))) (by tauto)
    · rw [if_neg h1]
      rw [Bool.or_eq_true, occTokB_iff, endsWithB_iff] at h1
      push_neg at h1
      by_cases h2 : (occTokB "operation".data (pyStrip h0.data) ||
          endsWithB "(B)".data (pyStrip h0.data)) = true
      · rw [if_pos h2]
        rw [Bool.or_eq_true, occTokB_iff, endsWithB_iff] at h2
        simp only [Option.some.injEq]
        constructor
        · intro h; exact absurd h (by decide)
        · intro h; exact absurd h2 (by tauto)
      · rw [if_neg h2]
        rw [Bool.or_eq_true, occTokB_iff, endsWithB_iff] at h2
        push_neg at h2
        by_cases h3 : (occTokB "end".data (pyStrip h0.data) ||
            endsWithB "(C)".data (pyStrip h0.data)) = true
        · rw [if_pos h3]
          rw [Bool.or_eq_true, occTokB_iff, endsWithB_iff] at h3
          simp only [Option.some.injEq]
          constructor
          · intro h; exact absurd h (by decide)
          · intro h; exact absurd h3 (by tauto)
        · rw [if_neg h3]
          rw [Bool.or_eq_true, occTokB_iff, endsWithB_iff] at h3
          push_neg at h3
          rw [if_pos (by rw [hhead]; simp)]
          simp only [Option.some.injEq, true_iff]
          tauto
  refine ⟨hiff, ?_⟩
  intro rows e he hcat
  have hem : e = missingCols (h0 :: rest) := by
    unfold load_excel_file at he
    by_cases hm : (missingCols (h0 :: rest)).isEmpty
    · rw [if_pos hm] at he
      exact Except.noConfusion he
    · rw [if_neg hm, Except.error.injEq] at he
      exact he.symm
  subst hem
  unfold missingCols at hcat
  rw [List.mem_filter] at hcat
  have hnone := hcat.2
  rw [Option.isNone_iff_eq_none] at hnone
  unfold resolveIdx at hnone
  rw [List.findIdx?_eq_none_iff] at hnone
  have h0mem := hnone h0 (List.mem_cons_self _ _)
  by_contra hnp
  have hcan := hiff.mpr hnp
  rw [hcan] at h0mem
  simp at h0mem

theorem C10_first_column_category_witness :
    ¬ PhasePattern "kategori" ∧ PhasePattern "End-of-life (C)" :=
  ⟨(C10_first_column_category "kategori" []).1.mp rfl,
   (C10_first_column_category "End-of-life (C)" []).2 []
     ["category", "construction_a", "operation_b"] rfl (by simp)⟩

/-! ## C6: RIBp precedence (corrected) -/

/-- C6 counterexample: "RIBpx RIB" contains the substring "RIBp", yet
`detect_discipline` returns "RIB" — the unbounded occurrence of RIBp does not
match the bounded RIBp pattern, while the bounded " RIB" does. -/
theorem C6_ribp_counterexample :
    OccTok "RIBp".data "RIBpx RIB".data ∧
    detect_discipline "RIBpx RIB" = some "RIB" := by
  decide

/-- C6 amended: for any category string in which "RIBp" occurs as a token
bounded on both sides by start/end of string or a space/underscore/hyphen,
`detect_discipline` returns "RIBp" and never "RIB" — the RIBp token is tested
before RIB. -/
theorem C6_ribp_precedence (s : String) (h : OccBdd "RIBp".data s.data) :
    detect_discipline s = some "RIBp" := by
  have hb : occBddB "RIBp".data s.data = true := (occBddB_iff _ _).mpr h
  unfold detect_discipline disciplines
  simp [List.find?, hb]

theorem C6_ribp_precedence_witness :
    OccBdd "RIBp".data "Scenario A - RIBp - MMI300".data ∧
    detect_discipline "Scenario A - RIBp - MMI300" = some "RIBp" :=
  ⟨by decide, C6_ribp_precedence _ (by decide)⟩

/-! ## C7: scenario rule case-sensitivity (corrected) -/

/-- C7 counterexample: the bare-leading-letter rule is case-sensitive — a
lowercase leading letter is not detected while its uppercase form is. -/
theorem C7_lowercase_counterexample :
    detect_scenario "a - RIV" = none ∧ detect_scenario "A - RIV" = some "A" := by
  decide

theorem scanScen1At_some {s : List Char} {i : Nat} {x : Char}
    (h : scanScen1At s i = some x) : tokAtB scenTok s i = true := by
  by_contra hb
  unfold scanScen1At at h
  rw [if_neg hb] at h
  exact Option.noConfusion h

theorem scanScen2At_some {s : List Char} {i : Nat} {x : Char}
    (h : scanScen2At s i = some x) : tokAtB scenTok s i = true := by
  by_contra hb
  unfold scanScen2At at h
  rw [if_neg hb] at h
  exact Option.noConfusion h

theorem scanScen3At_some {s : List Char} {i : Nat} {x : Char}
    (h : scanScen3At s i = some x) : ∃ j, tokAtB scenTok s j = true := by
  simp only [scanScen3At] at h
  repeat' split at h
  all_goals first
    | exact Option.noConfusion h
    | exact ⟨_, by assumption⟩

/-- When the literal token "Scenario" occurs nowhere in the string, none of
the three Scenario-token patterns can match. -/
theorem detect_scenario_p123_none (s : List Char) (hno : ¬ OccTok scenTok s) :
    detect_scenario_p1 s = none ∧ detect_scenario_p2 s = none ∧
      detect_scenario_p3 s = none := by
  have htok : ∀ i, ¬ tokAtB scenTok s i = true := fun i hb =>
    hno ⟨i, tokAt_of_tokAtB (by decide) hb⟩
  refine ⟨?_, ?_, ?_⟩
  · unfold detect_scenario_p1
    rw [List.findSome?_eq_none_iff]
    intro i _
    cases hsc : scanScen1At s i with
    | none => rfl
    | some x => exact absurd (scanScen1At_some hsc) (htok _)
  · unfold detect_scenario_p2
    rw [List.findSome?_eq_none_iff]
    intro i _
    cases hsc : scanScen2At s i with
    | none => rfl
    | some x => exact absurd (scanScen2At_some hsc) (htok _)
  · unfold detect_scenario_p3
    rw [List.findSome?_eq_none_iff]
    intro i _
    cases hsc : scanScen3At s i with
    | none => rfl
    | some x =>
      obtain ⟨j, hj⟩ := scanScen3At_some hsc
      exact absurd hj (htok _)

/-- C7 amended: the bare-leading-letter rule (pattern 4) is case-sensitive.
For any string starting with a letter followed by a space/underscore/hyphen
and containing no (case-insensitive) "Scenario" token, an uppercase leading
letter from {A,B,C,D} is detected as that scenario, while a lowercase leading
letter from {a,b,c,d} yields no detection at all. -/
theorem C7_bare_letter_case_sensitive (s : String) (c d : Char) (rest : List Char)
    (hs : s.data = c :: d :: rest) (hsep : isSep d = true)
    (hno : ¬ OccTok "Scenario".data s.data) :
    ((c = 'A' ∨ c = 'B' ∨ c = 'C' ∨ c = 'D') →
      detect_scenario s = some (String.mk [c])) ∧
    ((c = 'a' ∨ c = 'b' ∨ c = 'c' ∨ c = 'd') → detect_scenario s = none) := by
  obtain ⟨h1, h2, h3⟩ := detect_scenario_p123_none s.data hno
  constructor
  · intro hc
    simp only [detect_scenario]
    rw [h1, h2, h3, hs]
    rcases hc with rfl | rfl | rfl | rfl <;> simp [scanScen4, hsep]
  · intro hc
    simp only [detect_scenario]
    rw [h1, h2, h3, hs]
    rcases hc with rfl | rfl | rfl | rfl
    · simp [scanScen4, hsep,
        (by decide : ('a' == 'A' || 'a' == 'B' || 'a' == 'C' || 'a' == 'D') = false)]
    · simp [scanScen4, hsep,
        (by decide : ('b' == 'A' || 'b' == 'B' || 'b' == 'C' || 'b' == 'D') = false)]
    · simp [scanScen4, hsep,
        (by decide : ('c' == 'A' || 'c' == 'B' || 'c' == 'C' || 'c' == 'D') = false)]
    · simp [scanScen4, hsep,
        (by decide : ('d' == 'A' || 'd' == 'B' || 'd' == 'C' || 'd' == 'D') = false)]

theorem C7_bare_letter_case_sensitive_witness :
    ¬ OccTok "Scenario".data "B_x".data ∧
    detect_scenario "B_x" = some (String.mk ['B']) ∧
    detect_scenario "b_x" = none :=
  ⟨by decide,
   (C7_bare_letter_case_sensitive "B_x" 'B' '_' ['x'] rfl (by decide) (by decide)).1
     (Or.inr (Or.inl rfl)),
   (C7_bare_letter_case_sensitive "b_x" 'b' '_' ['x'] rfl (by decide) (by decide)).2
     (Or.inr (Or.inl rfl))⟩

/-- C8 counterexample: the first keyword check of the fallback is the plain
substring test `'existing waste' in category_lower`, not a token-bounded
search — in "coexisting waste" the keyword appears only inside the longer
word "coexisting", yet `detect_mmi` still returns "900". -/
theorem C8_existing_waste_counterexample :
    OccTok "existing waste".data ("coexisting waste".data.map lc) ∧
    ¬ OccBdd "existing waste".data ("coexisting waste".data.map lc) ∧
    detect_mmi "coexisting waste" = some "900" := by
  decide

set_option maxHeartbeats 2000000 in
/-- C8 amended: when neither MMI pattern matches, the keyword fallback of
`detect_mmi` is the ordered case-insensitive chain in which the very first
check, "existing waste", is a plain substring test (`OccTok` on the
lowercased string) while every other keyword is token-bounded (`OccBdd`):
the result is "900", "800", "700" or "300" exactly when the corresponding
keyword group fires and no earlier group does. -/
theorem C8_keyword_fallback_rules (catg : String)
    (h1 : detect_mmi_p1 catg.data = none) (h2 : detect_mmi_p2 catg.data = none) :
    (detect_mmi catg = some "900" ↔
      (OccTok "existing waste".data (catg.data.map lc) ∨
       OccBdd "rives".data (catg.data.map lc) ∨ OccBdd "riving".data (catg.data.map lc) ∨
       OccBdd "demolish".data (catg.data.map lc) ∨ OccBdd "demo".data (catg.data.map lc))) ∧
    (detect_mmi catg = some "800" ↔
      (¬(OccTok "existing waste".data (catg.data.map lc) ∨
         OccBdd "rives".data (catg.data.map lc) ∨ OccBdd "riving".data (catg.data.map lc) ∨
         OccBdd "demolish".data (catg.data.map lc) ∨ OccBdd "demo".data (catg.data.map lc)) ∧
       (OccBdd "reused".data (catg.data.map lc) ∨ OccBdd "gjenbruk".data (catg.data.map lc) ∨
        OccBdd "gjen".data (catg.data.map lc)))) ∧
    (detect_mmi catg = some "700" ↔
      (¬(OccTok "existing waste".data (catg.data.map lc) ∨
         OccBdd "rives".data (catg.data.map lc) ∨ OccBdd "riving".data (catg.data.map lc) ∨
         OccBdd "demolish".data (catg.data.map lc) ∨ OccBdd "demo".data (catg.data.map lc)) ∧
       ¬(OccBdd "reused".data (catg.data.map lc) ∨ OccBdd "gjenbruk".data (catg.data.map lc) ∨
         OccBdd "gjen".data (catg.data.map lc)) ∧
       (OccBdd "existing".data (catg.data.map lc) ∨
        OccBdd "eksisterende".data (catg.data.map lc) ∨
        OccBdd "beholdes".data (catg.data.map lc) ∨ OccBdd "eks".data (catg.data.map lc) ∨
        OccBdd "kept".data (catg.data.map lc)))) ∧
    (detect_mmi catg = some "300" ↔
      (¬(OccTok "existing waste".data (catg.data.map lc) ∨
         OccBdd "rives".data (catg.data.map lc) ∨ OccBdd "riving".data (catg.data.map lc) ∨
         OccBdd "demolish".data (catg.data.map lc) ∨ OccBdd "demo".data (catg.data.map lc)) ∧
       ¬(OccBdd "reused".data (catg.data.map lc) ∨ OccBdd "gjenbruk".data (catg.data.map lc) ∨
         OccBdd "gjen".data (catg.data.map lc)) ∧
       ¬(OccBdd "existing".data (catg.data.map lc) ∨
         OccBdd "eksisterende".data (catg.data.map lc) ∨
         OccBdd "beholdes".data (catg.data.map lc) ∨ OccBdd "eks".data (catg.data.map lc) ∨
         OccBdd "kept".data (catg.data.map lc)) ∧
       (OccBdd "new".data (catg.data.map lc) ∨ OccBdd "nybygg".data (catg.data.map lc) ∨
        OccBdd "ny".data (catg.data.map lc)))) := by
  simp only [detect_mmi, h1, h2]
  split_ifs with g1 g2 g3 g4 g5 g6 g7 g8
  all_goals simp only [Bool.or_eq_true, occTokB_iff, occBddB_iff] at *
  all_goals refine ⟨?_, ?_, ?_, ?_⟩
  all_goals first
    | exact iff_of_true trivial (by tauto)
    | exact iff_of_false (by simp) (by tauto)

theorem C8_keyword_fallback_rules_witness :
    detect_mmi_p1 "Reused".data = none ∧ detect_mmi_p2 "Reused".data = none ∧
    (detect_mmi "Reused" = some "800" ↔
      (¬(OccTok "existing waste".data ("Reused".data.map lc) ∨
         OccBdd "rives".data ("Reused".data.map lc) ∨
         OccBdd "riving".data ("Reused".data.map lc) ∨
         OccBdd "demolish".data ("Reused".data.map lc) ∨
         OccBdd "demo".data ("Reused".data.map lc)) ∧
       (OccBdd "reused".data ("Reused".data.map lc) ∨
        OccBdd "gjenbruk".data ("Reused".data.map lc) ∨
        OccBdd "gjen".data ("Reused".data.map lc)))) :=
  ⟨rfl, rfl, (C8_keyword_fallback_rules "Reused" rfl rfl).2.1⟩

/-- Membership in the first-occurrence deduplication scan: an element of
`uniqAux seen l` is exactly an element of `l` not already seen. -/
theorem uniqAux_mem (a : String) : ∀ (l seen : List String),
    a ∈ uniqAux seen l ↔ (a ∈ l ∧ a ∉ seen)
  | [], seen => by simp [uniqAux]
  | x :: xs, seen => by
    unfold uniqAux
    by_cases hx : x ∈ seen
    · rw [if_pos hx, uniqAux_mem a xs seen]
      constructor
      · rintro ⟨h1, h2⟩
        exact ⟨List.mem_cons_of_mem _ h1, h2⟩
      · rintro ⟨h1, h2⟩
        rcases List.mem_cons.mp h1 with rfl | h1
        · exact absurd hx h2
        · exact ⟨h1, h2⟩
    · rw [if_neg hx]
      constructor
      · intro h
        rcases List.mem_cons.mp h with rfl | h
        · exact ⟨List.mem_cons_self _ _, hx⟩
        · rw [uniqAux_mem a xs (x :: seen)] at h
          exact ⟨List.mem_cons_of_mem _ h.1,
            fun hseen => h.2 (List.mem_cons_of_mem _ hseen)⟩
      · rintro ⟨h1, h2⟩
        rcases List.mem_cons.mp h1 with rfl | h1
        · exact List.mem_cons_self _ _
        · by_cases hax : a = x
          · subst hax
            exact List.mem_cons_self _ _
          · apply List.mem_cons_of_mem
            rw [uniqAux_mem a xs (x :: seen)]
            exact ⟨h1, fun hm => (List.mem_cons.mp hm).elim hax h2⟩

/-- Deduplication preserves membership. -/
theorem uniqKeys_mem (a : String) (l : List String) : a ∈ uniqKeys l ↔ a ∈ l := by
  unfold uniqKeys
  rw [uniqAux_mem]
  simp

/-- Sorted insertion preserves membership. -/
theorem insortStr_mem (a x : String) (l : List String) :
    a ∈ insortStr x l ↔ a = x ∨ a ∈ l := by
  induction l with
  | nil => simp [insortStr]
  | cons y ys ih =>
    unfold insortStr
    by_cases hxy : x < y
    · rw [if_pos hxy]
      simp
    · rw [if_neg hxy]
      rw [List.mem_cons, ih, List.mem_cons]
      tauto

/-- Sorting preserves membership. -/
theorem sortStr_mem (a : String) (l : List String) : a ∈ sortStr l ↔ a ∈ l := by
  induction l with
  | nil => simp [sortStr]
  | cons x xs ih =>
    unfold sortStr
    rw [insortStr_mem, ih, List.mem_cons]

/-- C9 amended: whenever both scenario keys are in the tree, the
all-disciplines comparison succeeds; its rows range over exactly the union
of the two scenarios' discipline key sets (a side missing a discipline
contributes 0 via the `getD 0` default); each row's difference is
compare minus base; and the ratio is null exactly when the base-side total
is nonpositive — the source guards with `base_total > 0`, so a negative
base total also yields a null ratio — and equals (compare/base)*100 when
the base-side total is positive. -/
theorem C9_disciplines_union_ratio (tree : List (String × ScenNode)) (b c : String)
    (bn cn : ScenNode)
    (hb : alookup b tree = some bn) (hc : alookup c tree = some cn) :
    ∃ rows, get_all_disciplines_comparison tree b c = some rows ∧
      (∀ d : String, (∃ row ∈ rows, row.discipline = d) ↔
        (d ∈ bn.disciplines.map Prod.fst ∨ d ∈ cn.disciplines.map Prod.fst)) ∧
      (∀ row ∈ rows,
        row.base_total =
          ((alookup row.discipline bn.disciplines).map (fun dn => dn.total.total_gwp)).getD 0 ∧
        row.compare_total =
          ((alookup row.discipline cn.disciplines).map (fun dn => dn.total.total_gwp)).getD 0 ∧
        row.difference = row.compare_total - row.base_total ∧
        (row.ratio_pct = none ↔ row.base_total ≤ 0) ∧
        (0 < row.base_total →
          row.ratio_pct = some ((row.compare_total / row.base_total) * 100))) := by
  simp only [get_all_disciplines_comparison, hb, hc]
  refine ⟨_, rfl, ?_, ?_⟩
  · intro d
    constructor
    · rintro ⟨row, hrow, hd⟩
      rw [List.mem_map] at hrow
      obtain ⟨d', hd', rfl⟩ := hrow
      have hdd : d' = d := hd
      subst hdd
      rw [sortStr_mem, uniqKeys_mem, List.mem_append] at hd'
      exact hd'
    · intro hd
      refine ⟨_, List.mem_map.mpr ⟨d, ?_, rfl⟩, rfl⟩
      rw [sortStr_mem, uniqKeys_mem, List.mem_append]
      exact hd
  · intro row hrow
    rw [List.mem_map] at hrow
    obtain ⟨d', hd'mem, rfl⟩ := hrow
    dsimp only
    refine ⟨?_, ?_, rfl, ?_, ?_⟩
    · cases alookup d' bn.disciplines <;> rfl
    · cases alookup d' cn.disciplines <;> rfl
    · split
      · rename_i h
        exact iff_of_false (by simp) (not_le.mpr h)
      · rename_i h
        exact iff_of_true rfl (not_lt.mp h)
    · intro hbt2
      split
      · rfl
      · rename_i h
        exact absurd hbt2 h

/-- A scenario node whose single discipline RIV carries a negative GWP
total of -100, as a base scenario for the discipline comparison. -/
def c9NodeA : ScenNode :=
  { disciplines := [("RIV",
      { mmi_categories := [("300",
          { label := "NY", construction_a := -100, operation_b := 0,
            end_of_life_c := 0, total_gwp := -100, count := 1 })],
        total := { construction_a := -100, operation_b := 0, end_of_life_c := 0,
                   total_gwp := -100, count := 1 } })],
    total := { construction_a := -100, operation_b := 0, end_of_life_c := 0,
               total_gwp := -100, count := 1 } }

/-- A scenario node whose single discipline RIV carries a GWP total of 50,
as a compare scenario for the discipline comparison. -/
def c9NodeC : ScenNode :=
  { disciplines := [("RIV",
      { mmi_categories := [("300",
          { label := "NY", construction_a := 50, operation_b := 0,
            end_of_life_c := 0, total_gwp := 50, count := 1 })],
        total := { construction_a := 50, operation_b := 0, end_of_life_c := 0,
                   total_gwp := 50, count := 1 } })],
    total := { construction_a := 50, operation_b := 0, end_of_life_c := 0,
               total_gwp := 50, count := 1 } }

/-- A two-scenario aggregate tree whose base scenario's RIV discipline has
the negative total -100. -/
def c9Tree : List (String × ScenNode) := [("A", c9NodeA), ("C", c9NodeC)]

/-- C9 counterexample: with a base-side discipline total of -100 — nonzero —
the comparison row's ratio is still null, because the source guards the
ratio with `base_total > 0` rather than `base_total != 0`. -/
theorem C9_negative_base_counterexample :
    ((get_all_disciplines_comparison c9Tree "A" "C").map
        (fun rows => rows.map fun row => (row.discipline, row.base_total, row.ratio_pct)))
      = some [("RIV", -100, none)] ∧ ((-100 : ℚ) ≠ 0) := by
  exact ⟨rfl, by decide⟩

theorem C9_disciplines_union_ratio_witness :
    ∃ rows, get_all_disciplines_comparison c9Tree "A" "C" = some rows ∧
      (∀ d : String, (∃ row ∈ rows, row.discipline = d) ↔
        (d ∈ c9NodeA.disciplines.map Prod.fst ∨ d ∈ c9NodeC.disciplines.map Prod.fst)) ∧
      (∀ row ∈ rows,
        row.base_total =
          ((alookup row.discipline c9NodeA.disciplines).map
            (fun dn => dn.total.total_gwp)).getD 0 ∧
        row.compare_total =
          ((alookup row.discipline c9NodeC.disciplines).map
            (fun dn => dn.total.total_gwp)).getD 0 ∧
        row.difference = row.compare_total - row.base_total ∧
        (row.ratio_pct = none ↔ row.base_total ≤ 0) ∧
        (0 < row.base_total →
          row.ratio_pct = some ((row.compare_total / row.base_total) * 100))) :=
  C9_disciplines_union_ratio c9Tree "A" "C" c9NodeA c9NodeC rfl rfl
